import Mathlib

/-!
Verification of the traffic-accounting engine of `router_stats.py`.

The program polls OpenWrt routers, parses textual reports and persists
traffic statistics into SQLite tables.  We embed the stateful core
(`update_traffic_stats`, `reset_monthly_stats`, `upsert_dhcp_leases`) and the
pure wireless-stats parser (`parse_wifi_stats`) shallowly:

* the two stats tables (`cumulative_stats`, `monthly_stats`) are modelled as
  keyed maps `String → Option row`, matching their `id TEXT PRIMARY KEY`
  schemas;
* byte counters are unbounded `Int`, matching Python integers;
* timestamps (`'%Y-%m-%d %H:%M:%S'` strings) are modelled as a record of
  numeric fields; lexicographic order on the fields coincides with the string
  order SQLite uses on the zero-padded format;
* the ambient `datetime.datetime.now()` is threaded as an explicit `now`
  argument.
-/

/-- A timestamp, the model of a `'%Y-%m-%d %H:%M:%S'` string. -/
structure DateTime where
  year : Nat
  month : Nat
  day : Nat
  hour : Nat
  minute : Nat
  second : Nat
deriving DecidableEq, Repr

/-- A row of the `cumulative_stats` table (minus the `id` key). -/
structure Counters where
  rx : Int
  tx : Int
deriving DecidableEq, Repr

/-- A row of the `monthly_stats` table (minus the `id` key). -/
structure MonthlyRow where
  rx : Int
  tx : Int
  timestamp : DateTime
deriving DecidableEq, Repr

/-- The state of the `network_stats.db` database: both tables, as maps keyed
by the `id` primary-key column. -/
structure StatsDB where
  cumulative : String → Option Counters
  monthly : String → Option MonthlyRow

/-- The database with both tables empty. -/
def emptyStatsDB : StatsDB :=
  { cumulative := fun _ => none, monthly := fun _ => none }

/-- `INSERT OR REPLACE INTO monthly_stats (id, rx_bytes, tx_bytes, timestamp)
VALUES (e, 0, 0, now)` — executed when no `monthly_stats` row exists yet. -/
def monthlyInsertZero (d : StatsDB) (e : String) (now : DateTime) : StatsDB :=
  { d with monthly := fun i => if i = e then some ⟨0, 0, now⟩ else d.monthly i }

/-- `UPDATE monthly_stats SET rx_bytes = rx_bytes + drx, tx_bytes = tx_bytes
+ dtx, timestamp = now WHERE id = e` (a no-op on an absent row). -/
def monthlyAccum (d : StatsDB) (e : String) (drx dtx : Int) (now : DateTime) :
    StatsDB :=
  { d with monthly := fun i =>
      if i = e then (d.monthly i).map fun m => ⟨m.rx + drx, m.tx + dtx, now⟩
      else d.monthly i }

/-- `UPDATE monthly_stats SET rx_bytes = rx, tx_bytes = tx, timestamp = now
WHERE id = e` (a no-op on an absent row). -/
def monthlySet (d : StatsDB) (e : String) (rx tx : Int) (now : DateTime) :
    StatsDB :=
  { d with monthly := fun i =>
      if i = e then (d.monthly i).map fun _ => ⟨rx, tx, now⟩
      else d.monthly i }

/-- `INSERT OR REPLACE INTO cumulative_stats (id, rx_bytes, tx_bytes) VALUES
(e, rx, tx)`. -/
def cumulativePut (d : StatsDB) (e : String) (rx tx : Int) : StatsDB :=
  { d with cumulative := fun i =>
      if i = e then some ⟨rx, tx⟩ else d.cumulative i }

/-- `update_traffic_stats(conn, entity_id, new_rx, new_tx)` of
`router_stats.py`, on the fault-free path: read the last cumulative row,
insert a zeroed monthly row if absent, add the incremental deltas (or, with
no prior cumulative row, write the raw sample) into the monthly row, and
overwrite the cumulative row with the new sample. -/
def update_traffic_stats (db : StatsDB) (entity_id : String)
    (new_rx new_tx : Int) (now : DateTime) : StatsDB :=
  let last_stats := db.cumulative entity_id
  let db1 := if (db.monthly entity_id).isNone
    then monthlyInsertZero db entity_id now else db
  let db2 := match last_stats with
    | some last =>
        monthlyAccum db1 entity_id
          (if new_rx ≥ last.rx then new_rx - last.rx else new_rx)
          (if new_tx ≥ last.tx then new_tx - last.tx else new_tx) now
    | none => monthlySet db1 entity_id new_rx new_tx now
  cumulativePut db2 entity_id new_rx new_tx

example :
    (update_traffic_stats emptyStatsDB "e" 100 7 ⟨2024, 5, 1, 0, 0, 0⟩).monthly
      "e" = some ⟨100, 7, ⟨2024, 5, 1, 0, 0, 0⟩⟩ := by
  decide

/-!
## Fault model for `update_traffic_stats`

Python's `sqlite3` runs the `cursor.execute` statements of
`update_traffic_stats` inside an implicit transaction; writes become durable
only at `conn.commit()`.  The single `try`/`except sqlite3.Error` block means
the first failing statement aborts the remaining statements of the call.  We
model this with a connection state holding the `committed` database and the
`pending` uncommitted view, and a `fault : Option Nat` giving the index of
the first failing statement of the call (counting `execute` and `commit`
calls in program order), `none` if all succeed.
-/

/-- A connection state: the durable content and the in-transaction view. -/
structure SqlState where
  committed : StatsDB
  pending : StatsDB

/-- Does the current statement fail (is it the statement the fault counter
points at)? -/
def isFault : Option Nat → Bool
  | some 0 => true
  | _ => false

/-- Advance the fault counter past one executed statement. -/
def nextFault : Option Nat → Option Nat
  | none => none
  | some n => some (n - 1)

/-- The tail of `update_traffic_stats` after the monthly row is known to
exist: the monthly `UPDATE` (accumulate or raw-set depending on
`last_stats`), the cumulative `INSERT OR REPLACE`, and the final
`conn.commit()`.  A fault at any statement returns with the remaining
statements skipped and the pending writes unpublished. -/
def updateTail (st : SqlState) (fault : Option Nat)
    (last_stats : Option Counters) (entity_id : String)
    (new_rx new_tx : Int) (now : DateTime) : SqlState :=
  if isFault fault then st else
  let p1 := match last_stats with
    | some last =>
        monthlyAccum st.pending entity_id
          (if new_rx ≥ last.rx then new_rx - last.rx else new_rx)
          (if new_tx ≥ last.tx then new_tx - last.tx else new_tx) now
    | none => monthlySet st.pending entity_id new_rx new_tx now
  let st1 : SqlState := ⟨st.committed, p1⟩
  if isFault (nextFault fault) then st1 else
  let st2 : SqlState :=
    ⟨st1.committed, cumulativePut st1.pending entity_id new_rx new_tx⟩
  if isFault (nextFault (nextFault fault)) then st2 else
  ⟨st2.pending, st2.pending⟩

/-- `update_traffic_stats` under the fault model.  Statements in program
order: `SELECT` on `cumulative_stats`; `SELECT` on `monthly_stats`; when the
monthly row is absent, its zeroing `INSERT OR REPLACE` and a `commit`; then
`updateTail`.  The call starts a fresh transaction (`pending = committed`). -/
def update_traffic_stats_faulty (db : StatsDB) (entity_id : String)
    (new_rx new_tx : Int) (now : DateTime) (fault : Option Nat) : SqlState :=
  let st0 : SqlState := ⟨db, db⟩
  if isFault fault then st0 else
  let last_stats := db.cumulative entity_id
  if isFault (nextFault fault) then st0 else
  if (db.monthly entity_id).isNone then
    (if isFault (nextFault (nextFault fault)) then st0 else
     let st1 : SqlState := ⟨db, monthlyInsertZero db entity_id now⟩
     if isFault (nextFault (nextFault (nextFault fault))) then st1 else
     updateTail ⟨st1.pending, st1.pending⟩
       (nextFault (nextFault (nextFault (nextFault fault))))
       last_stats entity_id new_rx new_tx now)
  else
    updateTail st0 (nextFault (nextFault fault))
      last_stats entity_id new_rx new_tx now

/-!
## Month rollover: `reset_monthly_stats`

The reset reads aggregate facts about the `monthly_stats` table (emptiness
and the greatest `timestamp`), so for it the table is modelled as the finite
list of its rows.  `ORDER BY timestamp DESC LIMIT 1` on the zero-padded
`'%Y-%m-%d %H:%M:%S'` strings returns the lexicographically greatest
timestamp, which is field-wise lexicographic order on `DateTime`.
-/

/-- A full row of the `monthly_stats` table. -/
structure MonthlyEntry where
  id : String
  rx : Int
  tx : Int
  timestamp : DateTime
deriving DecidableEq, Repr

/-- Lexicographic order on timestamps, the order SQLite's `ORDER BY
timestamp` induces on the zero-padded string format. -/
def dtLe (a b : DateTime) : Bool :=
  if a.year ≠ b.year then a.year ≤ b.year
  else if a.month ≠ b.month then a.month ≤ b.month
  else if a.day ≠ b.day then a.day ≤ b.day
  else if a.hour ≠ b.hour then a.hour ≤ b.hour
  else if a.minute ≠ b.minute then a.minute ≤ b.minute
  else a.second ≤ b.second

/-- The greatest timestamp among the table's rows (`SELECT timestamp FROM
monthly_stats ORDER BY timestamp DESC LIMIT 1`), given a default for the
empty table (the caller has already ruled that case out). -/
def latestTimestamp (table : List MonthlyEntry) (d : DateTime) : DateTime :=
  match table with
  | [] => d
  | e :: rest =>
      rest.foldl
        (fun acc x => if dtLe acc x.timestamp then x.timestamp else acc)
        e.timestamp

/-- `datetime.date.today()` rendered through
`current_date.strftime('%Y-%m-%d %H:%M:%S')`: a `datetime.date` has no time
fields, so the string carries `00:00:00`. -/
def dateAtMidnight (now : DateTime) : DateTime :=
  ⟨now.year, now.month, now.day, 0, 0, 0⟩

/-- `reset_monthly_stats(conn)` of `router_stats.py` with the ambient
`datetime.date.today()` passed as the date part of `now`: on a non-empty
table whose greatest timestamp is in a different month or year than today,
zero every row and stamp it with today's date (at midnight, since the code
formats a `date`); otherwise leave the table alone. -/
def reset_monthly_stats (table : List MonthlyEntry) (now : DateTime) :
    List MonthlyEntry :=
  match table with
  | [] => table
  | _ :: _ =>
    if (latestTimestamp table (dateAtMidnight now)).month ≠ now.month ∨
        (latestTimestamp table (dateAtMidnight now)).year ≠ now.year then
      table.map fun e => { e with rx := 0, tx := 0,
                                  timestamp := dateAtMidnight now }
    else table

/-!
## DHCP lease store: `upsert_dhcp_leases`

The `dhcp_leases` table is keyed by `mac_address TEXT PRIMARY KEY`; we model
it as a map, like the stats tables.
-/

/-- A parsed DHCP lease, the dictionary `parse_dhcp_leases` produces. -/
structure LeaseRecord where
  mac_address : String
  lease_end_time : Int
  ip_address : String
  hostname : String
  client_id : String

/-- A row of the `dhcp_leases` table (minus the `mac_address` key). -/
structure LeaseRow where
  lease_end_time : Int
  ip_address : String
  hostname : String
  client_id : String
  timestamp : DateTime

/-- The `dhcp_leases` table, keyed by `mac_address`. -/
abbrev LeaseStore := String → Option LeaseRow

/-- One `INSERT OR REPLACE INTO dhcp_leases ... VALUES (...)`. -/
def leasePut (s : LeaseStore) (l : LeaseRecord) (now : DateTime) : LeaseStore :=
  fun k =>
    if k = l.mac_address then
      some ⟨l.lease_end_time, l.ip_address, l.hostname, l.client_id, now⟩
    else s k

/-- `upsert_dhcp_leases(conn, leases_data)` of `router_stats.py`, with the
ambient `datetime.datetime.now()` passed as `now`: one shared timestamp for
the whole batch, one keyed insert-or-replace per entry (the empty-batch
early return coincides with the empty fold). -/
def upsert_dhcp_leases (s : LeaseStore) (leases : List LeaseRecord)
    (now : DateTime) : LeaseStore :=
  leases.foldl (fun st l => leasePut st l now) s

/-!
## The wireless-stats parser: `parse_wifi_stats`

Pure string processing, embedded over `List Char`.  The pieces of Python
string behaviour the function relies on:

* `str.strip()` removes leading and trailing whitespace
  (`' '  '\t'  '\n'  '\r'  '\x0b'  '\x0c'`);
* `str.split('\n')` splits on every newline, keeping empty segments;
* `str.split()` (no argument) splits on whitespace runs, dropping empty
  tokens;
* `int(token)` accepts an optional sign followed by ASCII digits with single
  interior underscores (`int("-5") = -5`, `int("1_0") = 10`), and raises
  `ValueError` otherwise;
* `str.lower()` lowercases (ASCII suffices for MAC addresses).
-/

/-- Python whitespace, the character class `str.strip()` and `str.split()`
split on. -/
def pyWS (c : Char) : Bool :=
  c = ' ' ∨ c = '\t' ∨ c = '\n' ∨ c = '\r' ∨ c = '\x0b' ∨ c = '\x0c'

/-- `str.strip()`: drop whitespace from both ends. -/
def pyStrip (l : List Char) : List Char :=
  ((l.dropWhile pyWS).reverse.dropWhile pyWS).reverse

/-- Worker for `splitNL`, accumulating the current segment reversed. -/
def splitNLAux : List Char → List Char → List (List Char)
  | [], acc => [acc.reverse]
  | c :: rest, acc =>
      if c = '\n' then acc.reverse :: splitNLAux rest []
      else splitNLAux rest (c :: acc)

/-- `str.split('\n')`: split at every newline, keeping empty segments. -/
def splitNL (l : List Char) : List (List Char) :=
  splitNLAux l []

/-- Worker for `tokens`, accumulating the current token reversed. -/
def tokensAux : List Char → List Char → List (List Char)
  | [], acc => if acc.isEmpty then [] else [acc.reverse]
  | c :: rest, acc =>
      if pyWS c then
        if acc.isEmpty then tokensAux rest []
        else acc.reverse :: tokensAux rest []
      else tokensAux rest (c :: acc)

/-- `str.split()` with no argument: whitespace-run separated tokens, empty
tokens dropped. -/
def tokens (l : List Char) : List (List Char) :=
  tokensAux l []

/-- After a leading digit, `int()` accepts digits with single interior
underscores: `digit (('_')? digit)*`. -/
def pyDigRest : List Char → Bool
  | [] => true
  | '_' :: [] => false
  | '_' :: c :: rest => c.isDigit && pyDigRest (c :: rest)
  | c :: rest => c.isDigit && pyDigRest rest

/-- The digit strings `int()` accepts once a sign is stripped: non-empty,
leading digit, single interior underscores. -/
def pyDigits : List Char → Bool
  | [] => false
  | c :: rest => c.isDigit && pyDigRest rest

/-- Numeric value of an accepted digit string (underscores ignored). -/
def digitsToNat (l : List Char) : Nat :=
  l.foldl (fun a c => if c = '_' then a else a * 10 + (c.toNat - 48)) 0

/-- `int(token)` on a whitespace-free token: optional sign, then digits with
single interior underscores; `none` models the `ValueError` path. -/
def pyInt : List Char → Option Int
  | '-' :: rest => if pyDigits rest then some (-(digitsToNat rest : Int)) else none
  | '+' :: rest => if pyDigits rest then some (digitsToNat rest : Int) else none
  | l => if pyDigits l then some (digitsToNat l : Int) else none

/-- A parsed wireless client, the dictionary `parse_wifi_stats` appends. -/
structure Client where
  mac_address : List Char
  rx_bytes : Int
  tx_bytes : Int
deriving DecidableEq, Repr

/-- The per-line body of `parse_wifi_stats`: exactly three tokens, both byte
tokens accepted by `int()`, MAC lowercased; any other line contributes
nothing. -/
def parseLine (l : List Char) : Option Client :=
  match tokens l with
  | [m, r, t] =>
      match pyInt r, pyInt t with
      | some ri, some ti => some ⟨m.map Char.toLower, ri, ti⟩
      | _, _ => none
  | _ => none

/-- `parse_wifi_stats(data)` of `router_stats.py`: empty input yields no
clients; otherwise strip the data, split it into lines, and keep the
well-formed lines. -/
def parse_wifi_stats (data : List Char) : List Client :=
  if data.isEmpty then []
  else (splitNL (pyStrip data)).filterMap parseLine

example :
    parse_wifi_stats ("AA:bb:CC:dd:EE:ff 10 20\nxx 5".toList) =
      [⟨"aa:bb:cc:dd:ee:ff".toList, 10, 20⟩] := by decide

example : parse_wifi_stats ("aa -5 7".toList) = [⟨"aa".toList, -5, 7⟩] := by
  decide

example : parse_wifi_stats ("aa 1_0 7".toList) = [⟨"aa".toList, 10, 7⟩] := by
  decide

example : parse_wifi_stats ("aa 1x 2".toList) = [] := by decide

/-!
## Sample sequences

Feeding a sequence of cumulative samples for one entity through
`update_traffic_stats`, as the poll cycle does once per cycle.
-/

/-- Apply a sequence of cumulative `(rx, tx)` samples for one entity, in
order. -/
def apply_samples (db : StatsDB) (e : String) (ss : List (Int × Int))
    (now : DateTime) : StatsDB :=
  ss.foldl (fun d p => update_traffic_stats d e p.1 p.2 now) db

/-- The telescoping sum of consecutive differences of a list. -/
def telescopingSum : List Int → Int
  | [] => 0
  | [_] => 0
  | a :: b :: rest => (b - a) + telescopingSum (b :: rest)

/-- A database whose two tables hold at most the one entity `e`. -/
def singletonDB (e : String) (c : Option Counters) (m : Option MonthlyRow) :
    StatsDB :=
  { cumulative := fun i => if i = e then c else none,
    monthly := fun i => if i = e then m else none }

/-- A fixed timestamp for concrete instances. -/
def tA : DateTime := ⟨2024, 5, 1, 8, 0, 0⟩

/-- A second fixed timestamp. -/
def tB : DateTime := ⟨2024, 5, 2, 9, 30, 0⟩

/-- A third fixed timestamp. -/
def tC : DateTime := ⟨2024, 5, 3, 10, 45, 0⟩

/-- The stats database after the first sample of the §8 end-to-end
scenario. -/
def scenarioDB1 : StatsDB :=
  update_traffic_stats emptyStatsDB "aa:bb:cc:dd:ee:ff" 1000 200 tA

/-- The stats database after the second sample of the scenario. -/
def scenarioDB2 : StatsDB :=
  update_traffic_stats scenarioDB1 "aa:bb:cc:dd:ee:ff" 1500 250 tB

/-- The stats database after the third (post-reboot) sample of the
scenario. -/
def scenarioDB3 : StatsDB :=
  update_traffic_stats scenarioDB2 "aa:bb:cc:dd:ee:ff" 100 50 tC

/-- The last entry of a lease batch carrying a given MAC address (the entry
whose `INSERT OR REPLACE` wins). -/
def lastLeaseFor (L : List LeaseRecord) (k : String) : Option LeaseRecord :=
  match L with
  | [] => none
  | l :: rest =>
      match lastLeaseFor rest k with
      | some w => some w
      | none => if k = l.mac_address then some l else none

/-- A one-row monthly table last touched in January 2024. -/
def januaryTable : List MonthlyEntry := [⟨"a", 5, 6, ⟨2024, 1, 10, 12, 0, 0⟩⟩]

/-- A clock reading in March 2024, at half past noon. -/
def nowMarch : DateTime := ⟨2024, 3, 5, 12, 30, 45⟩

/-!
## Theorems
-/

/-- Behaviour of one `update_traffic_stats` call on an entity with both a
cumulative and a monthly row. -/
theorem updateStats_of_some (db : StatsDB) (e : String) (last : Counters)
    (m : MonthlyRow) (new_rx new_tx : Int) (now : DateTime)
    (hc : db.cumulative e = some last) (hm : db.monthly e = some m) :
    (update_traffic_stats db e new_rx new_tx now).monthly e =
        some ⟨m.rx + (if new_rx ≥ last.rx then new_rx - last.rx else new_rx),
              m.tx + (if new_tx ≥ last.tx then new_tx - last.tx else new_tx),
              now⟩ ∧
      (update_traffic_stats db e new_rx new_tx now).cumulative e =
        some ⟨new_rx, new_tx⟩ := by
  simp [update_traffic_stats, monthlyAccum, cumulativePut, hc, hm]

/-- Behaviour of one `update_traffic_stats` call on an entity with no
cumulative row: the raw sample lands in both tables. -/
theorem updateStats_of_none (db : StatsDB) (e : String)
    (new_rx new_tx : Int) (now : DateTime) (hc : db.cumulative e = none) :
    (update_traffic_stats db e new_rx new_tx now).monthly e =
        some ⟨new_rx, new_tx, now⟩ ∧
      (update_traffic_stats db e new_rx new_tx now).cumulative e =
        some ⟨new_rx, new_tx⟩ := by
  cases hm : db.monthly e <;>
    simp [update_traffic_stats, monthlySet, monthlyInsertZero, cumulativePut,
      hc, hm]

/-- An executable non-decreasing test on an `Int` sequence. -/
def nondecreasingB : List Int → Bool
  | [] => true
  | [_] => true
  | a :: b :: rest => (a ≤ b) && nondecreasingB (b :: rest)

/-- Unfolding `nondecreasingB` at a two-element head. -/
theorem nondecreasingB_cons (a b : Int) (l : List Int) :
    nondecreasingB (a :: b :: l) = true ↔
      a ≤ b ∧ nondecreasingB (b :: l) = true := by
  simp [nondecreasingB]

/-- Running a non-decreasing sample sequence from a known state adds the
difference between the last sample and the stored counters to the monthly
totals, and stores the last sample as the counters. -/
theorem apply_samples_nondecreasing (ss : List (Int × Int)) (e : String)
    (now : DateTime) :
    ∀ (db : StatsDB) (r t R T : Int) (ts : DateTime),
      db.cumulative e = some ⟨r, t⟩ → db.monthly e = some ⟨R, T, ts⟩ →
      nondecreasingB (r :: ss.map Prod.fst) = true →
      nondecreasingB (t :: ss.map Prod.snd) = true →
      (apply_samples db e ss now).monthly e =
          some ⟨R + ((ss.map Prod.fst).getLastD r - r),
                T + ((ss.map Prod.snd).getLastD t - t),
                if ss.isEmpty then ts else now⟩ ∧
        (apply_samples db e ss now).cumulative e =
          some ⟨(ss.map Prod.fst).getLastD r, (ss.map Prod.snd).getLastD t⟩ := by
  induction ss with
  | nil =>
      intro db r t R T ts hc hm _ _
      simp [apply_samples, hc, hm]
  | cons p ss2 ih =>
      intro db r t R T ts hc hm hrx htx
      rw [List.map_cons] at hrx htx
      obtain ⟨hra, hrx2⟩ := (nondecreasingB_cons _ _ _).mp hrx
      obtain ⟨htb, htx2⟩ := (nondecreasingB_cons _ _ _).mp htx
      have hstep := updateStats_of_some db e ⟨r, t⟩ ⟨R, T, ts⟩ p.1 p.2 now hc hm
      rw [if_pos hra, if_pos htb] at hstep
      have hrec := ih (update_traffic_stats db e p.1 p.2 now) p.1 p.2
        (R + (p.1 - r)) (T + (p.2 - t)) now hstep.2 hstep.1 hrx2 htx2
      have hfold : apply_samples db e (p :: ss2) now =
          apply_samples (update_traffic_stats db e p.1 p.2 now) e ss2 now := rfl
      rw [hfold]
      refine ⟨?_, ?_⟩
      · rw [hrec.1, List.map_cons, List.map_cons, List.getLastD_cons,
          List.getLastD_cons]
        simp only [List.isEmpty_cons, ite_self, Bool.false_eq_true, if_false,
          Option.some.injEq, MonthlyRow.mk.injEq]
        exact ⟨by ring, by ring, trivial⟩
      · rw [hrec.2, List.map_cons, List.map_cons, List.getLastD_cons,
          List.getLastD_cons]

/-- `a + telescopingSum (a :: l)` telescopes to the last element of
`a :: l`. -/
theorem telescopingSum_cons (l : List Int) :
    ∀ a : Int, a + telescopingSum (a :: l) = l.getLastD a := by
  induction l with
  | nil => intro a; simp [telescopingSum]
  | cons b l2 ih =>
      intro a
      have hb := ih b
      simp only [telescopingSum, List.getLastD_cons]
      omega

/-- C5 counterexample: from empty stores, the non-decreasing rx sequence
`[100, 150]` accumulates a monthly total of `150` (the first sample enters
in full), while the telescoping sum of its consecutive differences is
`50`. -/
theorem telescoping_claim_cex :
    nondecreasingB ([(100, 0), (150, 0)].map Prod.fst) = true ∧
      nondecreasingB ([(100, 0), (150, 0)].map Prod.snd) = true ∧
      (apply_samples emptyStatsDB "e" [(100, 0), (150, 0)] tA).monthly "e" =
        some ⟨150, 0, tA⟩ ∧
      telescopingSum ([(100, 0), (150, 0)].map (Prod.fst : Int × Int → Int)) =
        50 ∧
      (150 : Int) ≠ 50 := by
  decide

/-- C5 amended: for a non-empty sequence of samples with non-decreasing rx
and tx counters, run from empty stores, the monthly total of each counter
equals the first sample plus the telescoping sum of the sequence's
consecutive differences (equivalently, the last sample's value; the first
observation enters in full, not as a difference). -/
theorem apply_samples_telescoping (e : String) (now : DateTime)
    (p : Int × Int) (rest : List (Int × Int))
    (hrx : nondecreasingB ((p :: rest).map Prod.fst) = true)
    (htx : nondecreasingB ((p :: rest).map Prod.snd) = true) :
    (apply_samples emptyStatsDB e (p :: rest) now).monthly e =
      some ⟨p.1 + telescopingSum ((p :: rest).map Prod.fst),
            p.2 + telescopingSum ((p :: rest).map Prod.snd), now⟩ := by
  have hstep := updateStats_of_none emptyStatsDB e p.1 p.2 now rfl
  rw [List.map_cons] at hrx htx
  have hrec := apply_samples_nondecreasing rest e now
    (update_traffic_stats emptyStatsDB e p.1 p.2 now) p.1 p.2 p.1 p.2 now
    hstep.2 hstep.1 hrx htx
  have hfold : apply_samples emptyStatsDB e (p :: rest) now =
      apply_samples (update_traffic_stats emptyStatsDB e p.1 p.2 now) e rest
        now := rfl
  rw [hfold, hrec.1, List.map_cons, List.map_cons, telescopingSum_cons,
    telescopingSum_cons]
  simp only [ite_self, Option.some.injEq, MonthlyRow.mk.injEq]
  exact ⟨by ring, by ring, trivial⟩

/-- Witness for the amended C5 on the concrete non-decreasing sequence
`[(100, 10), (150, 20), (170, 20)]`. -/
theorem apply_samples_telescoping_witness :
    nondecreasingB
        ([((100 : Int), (10 : Int)), (150, 20), (170, 20)].map Prod.fst) =
        true ∧
      nondecreasingB
        ([((100 : Int), (10 : Int)), (150, 20), (170, 20)].map Prod.snd) =
        true ∧
      (apply_samples emptyStatsDB "e"
            [((100 : Int), (10 : Int)), (150, 20), (170, 20)] tA).monthly
          "e" =
        some ⟨100 + telescopingSum
                ([((100 : Int), (10 : Int)), (150, 20), (170, 20)].map
                  Prod.fst),
              10 + telescopingSum
                ([((100 : Int), (10 : Int)), (150, 20), (170, 20)].map
                  Prod.snd), tA⟩ :=
  ⟨by decide, by decide,
    apply_samples_telescoping "e" tA (100, 10) [(150, 20), (170, 20)]
      (by decide) (by decide)⟩

/-- C1: with an existing cumulative row `(last_rx, last_tx)` and a new
sample `(new_rx, new_tx)`, `update_traffic_stats` computes each delta
independently — `new - last` when `new ≥ last`, the raw `new` otherwise —
and adds both deltas to the existing monthly totals. -/
theorem update_traffic_stats_incremental_delta (db : StatsDB) (e : String)
    (last : Counters) (m : MonthlyRow) (new_rx new_tx : Int) (now : DateTime)
    (hc : db.cumulative e = some last) (hm : db.monthly e = some m) :
    (update_traffic_stats db e new_rx new_tx now).monthly e =
      some ⟨m.rx + (if new_rx ≥ last.rx then new_rx - last.rx else new_rx),
            m.tx + (if new_tx ≥ last.tx then new_tx - last.tx else new_tx),
            now⟩ := by
  simp [update_traffic_stats, monthlyAccum, cumulativePut, hc, hm]

/-- Witness for C1 at a concrete database: last counters `(100, 10)`,
monthly totals `(7, 8)`, new sample `(130, 4)` — tx decreased, so its delta
is the raw `4`. -/
theorem update_traffic_stats_incremental_delta_witness :
    (singletonDB "e" (some ⟨100, 10⟩) (some ⟨7, 8, tA⟩)).cumulative "e" =
        some ⟨100, 10⟩ ∧
      (singletonDB "e" (some ⟨100, 10⟩) (some ⟨7, 8, tA⟩)).monthly "e" =
        some ⟨7, 8, tA⟩ ∧
      (update_traffic_stats (singletonDB "e" (some ⟨100, 10⟩)
          (some ⟨7, 8, tA⟩)) "e" 130 4 tB).monthly "e" =
        some ⟨7 + (if (130 : Int) ≥ 100 then 130 - 100 else 130),
              8 + (if (4 : Int) ≥ 10 then 4 - 10 else 4), tB⟩ :=
  ⟨by decide, by decide,
    update_traffic_stats_incremental_delta
      (singletonDB "e" (some ⟨100, 10⟩) (some ⟨7, 8, tA⟩)) "e" ⟨100, 10⟩
      ⟨7, 8, tA⟩ 130 4 tB (by decide) (by decide)⟩

/-- C2: the §8 end-to-end scenario.  From empty stores, sample
`(1000, 200)` yields monthly and cumulative `(1000, 200)`; sample
`(1500, 250)` yields monthly `(1500, 250)`; post-reboot sample `(100, 50)`
yields monthly `(1600, 300)` and cumulative `(100, 50)`. -/
theorem traffic_scenario_end_to_end :
    (scenarioDB1.monthly "aa:bb:cc:dd:ee:ff" = some ⟨1000, 200, tA⟩ ∧
        scenarioDB1.cumulative "aa:bb:cc:dd:ee:ff" = some ⟨1000, 200⟩) ∧
      scenarioDB2.monthly "aa:bb:cc:dd:ee:ff" = some ⟨1500, 250, tB⟩ ∧
      scenarioDB3.monthly "aa:bb:cc:dd:ee:ff" = some ⟨1600, 300, tC⟩ ∧
      scenarioDB3.cumulative "aa:bb:cc:dd:ee:ff" = some ⟨100, 50⟩ := by
  decide

/-- C3 counterexample: with no cumulative row but an existing monthly row
`(5, 7)`, the sample `(10, 3)` leaves monthly totals `(10, 3)` — the code
overwrites (`SET rx_bytes = ?`), it does not add to the prior `(5, 7)`. -/
theorem first_sample_overwrites_cex :
    (update_traffic_stats (singletonDB "x" none (some ⟨5, 7, tA⟩)) "x" 10 3
          tB).monthly "x" = some ⟨10, 3, tB⟩ ∧
      ¬ (update_traffic_stats (singletonDB "x" none (some ⟨5, 7, tA⟩)) "x" 10
          3 tB).monthly "x" = some ⟨5 + 10, 7 + 3, tB⟩ := by
  decide

/-- C3 amended: with no prior cumulative row, `update_traffic_stats` writes
the raw sample `(new_rx, new_tx)` into the monthly row (overwriting any
prior totals; this coincides with accumulation only when the monthly row
was just initialized to zero) and stores the sample as the cumulative
row. -/
theorem first_sample_sets_raw_value (db : StatsDB) (e : String)
    (new_rx new_tx : Int) (now : DateTime) (hc : db.cumulative e = none) :
    (update_traffic_stats db e new_rx new_tx now).monthly e =
        some ⟨new_rx, new_tx, now⟩ ∧
      (update_traffic_stats db e new_rx new_tx now).cumulative e =
        some ⟨new_rx, new_tx⟩ := by
  cases hm : db.monthly e <;>
    simp [update_traffic_stats, monthlySet, monthlyInsertZero, cumulativePut,
      hc, hm]

/-- Witness for the amended C3 on an entity with no rows at all. -/
theorem first_sample_sets_raw_value_witness :
    emptyStatsDB.cumulative "e" = none ∧
      ((update_traffic_stats emptyStatsDB "e" 42 9 tA).monthly "e" =
          some ⟨42, 9, tA⟩ ∧
        (update_traffic_stats emptyStatsDB "e" 42 9 tA).cumulative "e" =
          some ⟨42, 9⟩) :=
  ⟨by decide, first_sample_sets_raw_value _ _ _ _ _ (by decide)⟩

/-- C10: a sample for entity `e` leaves both rows of every other entity
`e2` untouched. -/
theorem update_traffic_stats_frame (db : StatsDB) (e e2 : String)
    (new_rx new_tx : Int) (now : DateTime) (h : e ≠ e2) :
    (update_traffic_stats db e new_rx new_tx now).cumulative e2 =
        db.cumulative e2 ∧
      (update_traffic_stats db e new_rx new_tx now).monthly e2 =
        db.monthly e2 := by
  have h2 : ¬ (e2 = e) := fun hh => h hh.symm
  cases hc : db.cumulative e <;> cases hm : db.monthly e <;>
    simp [update_traffic_stats, monthlyAccum, monthlySet, monthlyInsertZero,
      cumulativePut, hc, hm, h2]

/-- Witness for C10 with two concrete distinct entities. -/
theorem update_traffic_stats_frame_witness :
    ("a" : String) ≠ "b" ∧
      ((update_traffic_stats emptyStatsDB "a" 5 6 tA).cumulative "b" =
          emptyStatsDB.cumulative "b" ∧
        (update_traffic_stats emptyStatsDB "a" 5 6 tA).monthly "b" =
          emptyStatsDB.monthly "b") :=
  ⟨by decide, update_traffic_stats_frame _ _ _ _ _ _ (by decide)⟩

/-- C4 counterexample: the reset does fire on a January-to-March gap, but it
stamps the rows with `now`'s calendar date at midnight, not with `now`:
the code formats a `datetime.date`, so the stored time is `00:00:00`. -/
theorem reset_monthly_stats_timestamp_cex :
    reset_monthly_stats januaryTable nowMarch =
        [⟨"a", 0, 0, ⟨2024, 3, 5, 0, 0, 0⟩⟩] ∧
      (⟨2024, 3, 5, 0, 0, 0⟩ : DateTime) ≠ nowMarch := by
  decide

/-- C4 amended: if the greatest timestamp in the monthly table is in a
different (year, month) than `now` — regardless of how many months apart —
every row keeps its id but has its totals zeroed and its timestamp set to
`now`'s calendar date at midnight; if the (year, month) agree the table is
unchanged; the empty table is untouched. -/
theorem reset_monthly_stats_spec (table : List MonthlyEntry)
    (now : DateTime) :
    (((latestTimestamp table (dateAtMidnight now)).month ≠ now.month ∨
        (latestTimestamp table (dateAtMidnight now)).year ≠ now.year) →
      ((reset_monthly_stats table now).map MonthlyEntry.id =
          table.map MonthlyEntry.id ∧
        ∀ r ∈ reset_monthly_stats table now,
          r.rx = 0 ∧ r.tx = 0 ∧ r.timestamp = dateAtMidnight now)) ∧
      (((latestTimestamp table (dateAtMidnight now)).month = now.month ∧
        (latestTimestamp table (dateAtMidnight now)).year = now.year) →
        reset_monthly_stats table now = table) ∧
      reset_monthly_stats [] now = [] := by
  refine ⟨fun hdiff => ?_, fun heq => ?_, rfl⟩
  · cases table with
    | nil => simp [latestTimestamp, dateAtMidnight] at hdiff
    | cons e rest =>
        simp only [reset_monthly_stats]
        rw [if_pos hdiff]
        constructor
        · simp
        · intro r hr
          simp only [List.mem_map] at hr
          obtain ⟨x, _, rfl⟩ := hr
          exact ⟨rfl, rfl, rfl⟩
  · cases table with
    | nil => rfl
    | cons e rest =>
        simp only [reset_monthly_stats]
        rw [if_neg]
        simp [heq.1, heq.2]

/-- Witness for C4, applying the amended theorem on both branches: the
January table reset under a March clock, and a table left alone when the
month matches. -/
theorem reset_monthly_stats_spec_witness :
    ((reset_monthly_stats januaryTable nowMarch).map MonthlyEntry.id =
        januaryTable.map MonthlyEntry.id ∧
      ∀ r ∈ reset_monthly_stats januaryTable nowMarch,
        r.rx = 0 ∧ r.tx = 0 ∧ r.timestamp = dateAtMidnight nowMarch) ∧
      reset_monthly_stats januaryTable ⟨2024, 1, 20, 7, 0, 0⟩ =
        januaryTable :=
  ⟨(reset_monthly_stats_spec januaryTable nowMarch).1 (by decide),
    (reset_monthly_stats_spec januaryTable ⟨2024, 1, 20, 7, 0, 0⟩).2.1
      (by decide)⟩

/-- The final table content of `upsert_dhcp_leases`: the batch's last entry
for a key wins; keys outside the batch keep their prior row. -/
theorem upsert_dhcp_leases_lookup (L : List LeaseRecord) (s : LeaseStore)
    (now : DateTime) (k : String) :
    upsert_dhcp_leases s L now k =
      match lastLeaseFor L k with
      | some l =>
          some ⟨l.lease_end_time, l.ip_address, l.hostname, l.client_id, now⟩
      | none => s k := by
  induction L generalizing s with
  | nil => rfl
  | cons l rest ih =>
      show upsert_dhcp_leases (leasePut s l now) rest now k = _
      rw [ih]
      cases h : lastLeaseFor rest k with
      | some w => simp [lastLeaseFor, h]
      | none =>
          simp only [lastLeaseFor, h, leasePut]
          by_cases hk : k = l.mac_address <;> simp [hk]

/-- C9: upserting the same lease batch twice with the same timestamp leaves
the lease table exactly as upserting it once. -/
theorem upsert_dhcp_leases_idempotent (s : LeaseStore)
    (L : List LeaseRecord) (now : DateTime) :
    upsert_dhcp_leases (upsert_dhcp_leases s L now) L now =
      upsert_dhcp_leases s L now := by
  funext k
  rw [upsert_dhcp_leases_lookup, upsert_dhcp_leases_lookup]
  cases h : lastLeaseFor L k with
  | some w => rfl
  | none => rfl

/-- The durable outcome of the tail of a faulty `update_traffic_stats` call:
either all three remaining statements succeeded and the fully-updated
pending view was committed, or the durable content is untouched. -/
theorem updateTail_committed (st : SqlState) (f : Option Nat)
    (ls : Option Counters) (e : String) (nr nt : Int) (now : DateTime) :
    (updateTail st f ls e nr nt now).committed =
        cumulativePut
          (match ls with
            | some last =>
                monthlyAccum st.pending e
                  (if nr ≥ last.rx then nr - last.rx else nr)
                  (if nt ≥ last.tx then nt - last.tx else nt) now
            | none => monthlySet st.pending e nr nt now) e nr nt ∨
      (updateTail st f ls e nr nt now).committed = st.committed := by
  simp only [updateTail]
  split_ifs
  · exact Or.inr rfl
  · exact Or.inr rfl
  · exact Or.inr rfl
  · exact Or.inl rfl

/-- C6: under every fault schedule, the durable state after
`update_traffic_stats` either carries the full update (monthly accumulation
and counter overwrite together) or carries neither — at most the separately
committed zero-initialization of an absent monthly row.  The counter row is
never advanced while the delta is missing from the monthly row, because
only the final `conn.commit()` publishes both pending writes. -/
theorem update_traffic_stats_atomic (db : StatsDB) (e : String)
    (new_rx new_tx : Int) (now : DateTime) (fault : Option Nat) :
    (update_traffic_stats_faulty db e new_rx new_tx now fault).committed =
        update_traffic_stats db e new_rx new_tx now ∨
      ((update_traffic_stats_faulty db e new_rx new_tx now
            fault).committed.cumulative e = db.cumulative e ∧
        ((update_traffic_stats_faulty db e new_rx new_tx now
              fault).committed.monthly e = db.monthly e ∨
          (db.monthly e = none ∧
            (update_traffic_stats_faulty db e new_rx new_tx now
                fault).committed.monthly e = some ⟨0, 0, now⟩))) := by
  simp only [update_traffic_stats_faulty]
  split_ifs with h1 h2 h3 h4 h5
  · exact Or.inr ⟨rfl, Or.inl rfl⟩
  · exact Or.inr ⟨rfl, Or.inl rfl⟩
  · exact Or.inr ⟨rfl, Or.inl rfl⟩
  · exact Or.inr ⟨rfl, Or.inl rfl⟩
  · rcases updateTail_committed
        ⟨monthlyInsertZero db e now, monthlyInsertZero db e now⟩
        (nextFault (nextFault (nextFault (nextFault fault))))
        (db.cumulative e) e new_rx new_tx now with h | h
    · refine Or.inl (h.trans ?_)
      simp only [update_traffic_stats, h3, if_true]
    · exact Or.inr (h ▸ ⟨rfl, Or.inr
        ⟨Option.isNone_iff_eq_none.mp h3, by simp [monthlyInsertZero]⟩⟩)
  · rcases updateTail_committed ⟨db, db⟩ (nextFault (nextFault fault))
        (db.cumulative e) e new_rx new_tx now with h | h
    · refine Or.inl (h.trans ?_)
      simp [update_traffic_stats, h3]
    · exact Or.inr (h ▸ ⟨rfl, Or.inl rfl⟩)

/-- Splitting worker past a newline-free prefix followed by a newline. -/
theorem splitNLAux_append (l1 : List Char) :
    ∀ (l2 acc : List Char), '\n' ∉ l1 →
      splitNLAux (l1 ++ '\n' :: l2) acc =
        (acc.reverse ++ l1) :: splitNLAux l2 [] := by
  induction l1 with
  | nil => intro l2 acc _; simp [splitNLAux]
  | cons c l1t ih =>
      intro l2 acc hmem
      have hc : ¬ (c = '\n') := fun hh => hmem (hh ▸ List.mem_cons_self c l1t)
      have hrest : '\n' ∉ l1t := fun hh => hmem (List.mem_cons_of_mem c hh)
      simp only [List.cons_append, splitNLAux, if_neg hc, List.append_eq]
      rw [ih l2 (c :: acc) hrest]
      simp

/-- The splitting worker on a newline-free list yields one segment. -/
theorem splitNLAux_no_newline (l : List Char) :
    ∀ acc : List Char, '\n' ∉ l →
      splitNLAux l acc = [acc.reverse ++ l] := by
  induction l with
  | nil => intro acc _; simp [splitNLAux]
  | cons c lt ih =>
      intro acc hmem
      have hc : ¬ (c = '\n') := fun hh => hmem (hh ▸ List.mem_cons_self c lt)
      have hrest : '\n' ∉ lt := fun hh => hmem (List.mem_cons_of_mem c hh)
      simp only [splitNLAux, if_neg hc]
      rw [ih (c :: acc) hrest]
      simp

/-- `split('\n')` on two newline-free lines joined by one newline. -/
theorem splitNL_two_lines (l1 l2 : List Char) (h1 : '\n' ∉ l1)
    (h2 : '\n' ∉ l2) : splitNL (l1 ++ '\n' :: l2) = [l1, l2] := by
  rw [splitNL, splitNLAux_append l1 l2 [] h1, splitNLAux_no_newline l2 [] h2]
  simp

/-- `split('\n')` on a newline-free input: a single line. -/
theorem splitNL_one_line (l : List Char) (h : '\n' ∉ l) :
    splitNL l = [l] := by
  rw [splitNL, splitNLAux_no_newline l [] h]
  simp

/-- C7: on an input made of one well-formed line (three tokens, the second
and third accepted by `int()`) and one line of only two tokens, the parser
returns exactly the one record of the well-formed line, with the MAC
lowercased; the malformed line is skipped without aborting the batch. -/
theorem parse_wifi_skips_malformed (l1 l2 m r t u v : List Char)
    (ri ti : Int) (hstrip : pyStrip (l1 ++ '\n' :: l2) = l1 ++ '\n' :: l2)
    (h1 : '\n' ∉ l1) (h2 : '\n' ∉ l2) (htok1 : tokens l1 = [m, r, t])
    (hr : pyInt r = some ri) (ht : pyInt t = some ti)
    (htok2 : tokens l2 = [u, v]) :
    parse_wifi_stats (l1 ++ '\n' :: l2) = [⟨m.map Char.toLower, ri, ti⟩] := by
  have hne : (l1 ++ '\n' :: l2).isEmpty = false := by cases l1 <;> rfl
  rw [parse_wifi_stats, if_neg (by rw [hne]; exact Bool.false_ne_true), hstrip,
    splitNL_two_lines l1 l2 h1 h2]
  simp [List.filterMap, parseLine, htok1, htok2, hr, ht]

/-- Witness for C7 on the concrete input `"AA:bb 10 20\nxx 5"`. -/
theorem parse_wifi_skips_malformed_witness :
    pyStrip ("AA:bb 10 20".toList ++ '\n' :: "xx 5".toList) =
        "AA:bb 10 20".toList ++ '\n' :: "xx 5".toList ∧
      '\n' ∉ "AA:bb 10 20".toList ∧ '\n' ∉ "xx 5".toList ∧
      tokens "AA:bb 10 20".toList =
        ["AA:bb".toList, "10".toList, "20".toList] ∧
      pyInt "10".toList = some 10 ∧ pyInt "20".toList = some 20 ∧
      tokens "xx 5".toList = ["xx".toList, "5".toList] ∧
      parse_wifi_stats ("AA:bb 10 20".toList ++ '\n' :: "xx 5".toList) =
        [⟨"AA:bb".toList.map Char.toLower, 10, 20⟩] :=
  ⟨by decide, by decide, by decide, by decide, by decide, by decide,
    by decide,
    parse_wifi_skips_malformed "AA:bb 10 20".toList "xx 5".toList
      "AA:bb".toList "10".toList "20".toList "xx".toList "5".toList 10 20
      (by decide) (by decide) (by decide) (by decide) (by decide) (by decide)
      (by decide)⟩

/-- C8 counterexample: Python's `int()` accepts a signed token, so the
three-token line `"aa:bb:cc:dd:ee:ff -5 7"` is parsed rather than skipped
and produces a record with a negative rx byte count. -/
theorem parse_wifi_negative_cex :
    parse_wifi_stats ("aa:bb:cc:dd:ee:ff -5 7".toList) =
        [⟨"aa:bb:cc:dd:ee:ff".toList, -5, 7⟩] ∧
      ∃ c ∈ parse_wifi_stats ("aa:bb:cc:dd:ee:ff -5 7".toList),
        c.rx_bytes < 0 := by
  refine ⟨by decide, ⟨⟨"aa:bb:cc:dd:ee:ff".toList, -5, 7⟩, by decide,
    by decide⟩⟩

/-- C8 amended: a single three-token line produces a record exactly when
both byte-count tokens are accepted by Python's `int()` — which admits an
optional sign and underscore digit separators, so the resulting counters
can be negative; a three-token line whose byte token `int()` rejects is
skipped. -/
theorem parse_wifi_three_tokens (l m r t : List Char)
    (hstrip : pyStrip l = l) (hn : '\n' ∉ l) (hne : l.isEmpty = false)
    (htok : tokens l = [m, r, t]) :
    parse_wifi_stats l =
      match pyInt r, pyInt t with
      | some ri, some ti => [⟨m.map Char.toLower, ri, ti⟩]
      | _, _ => [] := by
  rw [parse_wifi_stats, if_neg (by rw [hne]; exact Bool.false_ne_true),
    hstrip, splitNL_one_line l hn]
  cases hri : pyInt r <;> cases hti : pyInt t <;>
    simp [List.filterMap, parseLine, htok, hri, hti]

/-- Witness for the amended C8: the line `"aa 1x 2"` has three tokens but a
non-integer byte token, so it yields no record. -/
theorem parse_wifi_three_tokens_witness :
    pyStrip "aa 1x 2".toList = "aa 1x 2".toList ∧
      '\n' ∉ "aa 1x 2".toList ∧ ("aa 1x 2".toList).isEmpty = false ∧
      tokens "aa 1x 2".toList = ["aa".toList, "1x".toList, "2".toList] ∧
      parse_wifi_stats "aa 1x 2".toList = [] :=
  ⟨by decide, by decide, by decide, by decide, by
    rw [parse_wifi_three_tokens "aa 1x 2".toList "aa".toList "1x".toList
      "2".toList (by decide) (by decide) (by decide) (by decide)]
    decide⟩
